import Mathlib

/-!
Shallow embedding of the fraud-check admission and correlation pipeline of the
repository: app/services/check_fraud_result_dict.py (the result correlation
table), app/services/check_fraud_queue.py (the submission queue),
app/services/check_fraud.py (the judge worker loop) and
app/api/endpoints/check_fraud_ws.py (the websocket handler and the
completeness classifier).  The event loop is modelled by explicit state passing:
each `async with lock` block of the source is one atomic step, and the
operations other tasks perform while a coroutine is suspended are passed in as
an explicit list of table operations.
-/

/-- Modelled from the spec: the structured judgment produced by the external
judge (spec section 3, Verdict).  The pydantic class LLMResponse lives in
app/schemas/check_fraud.py, which is not under src/; the spec gives its fields
as risk_level, confidence, detected_patterns, explanation, recommended_action.
Confidence is kept as a rational number. -/
structure Verdict where
  risk_level : String
  confidence : ℚ
  detected_patterns : List String
  explanation : String
  recommended_action : String
deriving DecidableEq

/-- The value the worker stores for a message: a parsed verdict on success, or
the Python literal False used as the terminal-failure sentinel
(check_fraud.py line 121: `result_LLMResponse = False`). -/
inductive WorkerResult where
  | verdict (v : Verdict)
  | sentinelFalse
deriving DecidableEq

/-- The Python exceptions that can arise in the modelled fragments. -/
inductive PyError where
  | attributeError (attr : String)
  | typeError (msg : String)
  | valueError (msg : String)
deriving DecidableEq

/-- State of the CheckFraudResultDict singleton (check_fraud_result_dict.py).
`_data` maps a message to a pair of an asyncio.Event and an optional result.
Event objects are given numeric identities: `nextId` supplies a fresh id for
each newly constructed `asyncio.Event()`, and `fired` records the ids of events
whose `set()` has been called. -/
structure TableState where
  nextId : Nat
  fired : List Nat
  entries : List (String × Nat × Option WorkerResult)
deriving DecidableEq

/-- The initial `_data = {}` of the singleton. -/
def emptyTable : TableState := ⟨0, [], []⟩

/-- Python dict lookup `message in self._data` / `self._data[message]`. -/
def lookupKey (k : String) :
    List (String × Nat × Option WorkerResult) → Option (Nat × Option WorkerResult)
  | [] => none
  | (k₀, v₀) :: rest => if k₀ = k then some v₀ else lookupKey k rest

/-- Python dict item assignment `self._data[message] = ...` on a present key. -/
def setKey (k : String) (v : Nat × Option WorkerResult) :
    List (String × Nat × Option WorkerResult) → List (String × Nat × Option WorkerResult)
  | [] => []
  | (k₀, v₀) :: rest => if k₀ = k then (k₀, v) :: rest else (k₀, v₀) :: setKey k v rest

/-- Python dict `self._data.pop(message, default)`: drop the key if present. -/
def eraseKey (k : String) :
    List (String × Nat × Option WorkerResult) → List (String × Nat × Option WorkerResult)
  | [] => []
  | (k₀, v₀) :: rest => if k₀ = k then rest else (k₀, v₀) :: eraseKey k rest

/-- Number of entries stored under key `k`. -/
def countKey (k : String) (l : List (String × Nat × Option WorkerResult)) : Nat :=
  (l.filter (fun p => p.1 = k)).length

/-- create_event_for_message (check_fraud_result_dict.py lines 17-25): under the
lock, if no entry exists for the message, store a fresh Event paired with None;
otherwise do nothing. -/
def create_event_for_message (s : TableState) (message : String) : TableState :=
  match lookupKey message s.entries with
  | some _ => s
  | none =>
      { nextId := s.nextId + 1
        fired := s.fired
        entries := (message, s.nextId, none) :: s.entries }

/-- set_result_for_message (check_fraud_result_dict.py lines 27-36): under the
lock, if an entry exists for the message, attach the result and call
`event.set()`; otherwise do nothing. -/
def set_result_for_message (s : TableState) (message : String)
    (result : WorkerResult) : TableState :=
  match lookupKey message s.entries with
  | some (eid, _) =>
      { nextId := s.nextId
        fired := eid :: s.fired
        entries := setKey message (eid, some result) s.entries }
  | none => s

/-- An atomic table operation another task may perform while a waiter is
suspended: a caller registering, or the worker publishing. -/
inductive TableOp where
  | register (k : String)
  | publish (k : String) (r : WorkerResult)
deriving DecidableEq

/-- Apply one interleaved operation to the table. -/
def applyOp (s : TableState) : TableOp → TableState
  | TableOp.register k => create_event_for_message s k
  | TableOp.publish k r => set_result_for_message s k r

/-- Apply the interleaved operations in order. -/
def applyOps (s : TableState) (ops : List TableOp) : TableState := ops.foldl applyOp s

/-- wait_for_result (check_fraud_result_dict.py lines 38-62).  `ops` lists the
atomic table operations other tasks perform while this waiter is suspended
inside the timeout window.  The steps of the source: look the event up under
the lock (if absent, return None at once); suspend on
`asyncio.wait_for(event.wait(), timeout)` — the wait succeeds iff the event is
set by the end of the window; on timeout pop the key and return None; on wake
pop the key (tolerating concurrent removal with default (None, None)) and
return the stored result. -/
def wait_for_result (s : TableState) (message : String) (ops : List TableOp) :
    Option WorkerResult × TableState :=
  match lookupKey message s.entries with
  | none => (none, s)
  | some (eid, _) =>
      let s₁ := applyOps s ops
      if eid ∈ s₁.fired then
        match lookupKey message s₁.entries with
        | some (_, r) => (r, { s₁ with entries := eraseKey message s₁.entries })
        | none => (none, s₁)
      else
        (none, { s₁ with entries := eraseKey message s₁.entries })

/-- Well-formedness of a table state, maintained by all operations: the dict
has no duplicate keys (a Python dict cannot), and every event id in use or
already fired was produced by the fresh-id counter. -/
def WF (s : TableState) : Prop :=
  (s.entries.map Prod.fst).Nodup ∧
  (∀ p ∈ s.entries, p.2.1 < s.nextId) ∧
  (∀ i ∈ s.fired, i < s.nextId)

/-- Whether the pending entry for `msg`, if one exists, still has an unfired
event (no publish has reached it yet). -/
def entryUnfired (s : TableState) (msg : String) : Bool :=
  match lookupKey msg s.entries with
  | none => true
  | some (eid, _) => decide (eid ∉ s.fired)

/-- The method names defined by class CheckFraudResultDict
(check_fraud_result_dict.py): attribute lookup on the instance succeeds exactly
for these. -/
def cfrdMethods : List String :=
  ["create_event_for_message", "set_result_for_message", "wait_for_result"]

/-- Python attribute access on the CheckFraudResultDict instance: any name not
defined by the class raises AttributeError. -/
def getattrCfrd (name : String) : Except PyError Unit :=
  if name ∈ cfrdMethods then Except.ok () else Except.error (PyError.attributeError name)

/-- The runtime class of the value bound to `original_text` in process_queue. -/
inductive PyObj where
  | pyNone
  | pyCoroutine
deriving DecidableEq

/-- `original_text = cfq.pop()` (check_fraud.py line 103): CheckFraudQueue.pop
is an `async def` and the call is not awaited, so the bound value is the
coroutine object itself — which is never None — and, because the coroutine is
never run, no item is removed from the queue. -/
def popUnawaited (q : List String) : PyObj × List String := (PyObj.pyCoroutine, q)

/-- The retry loop `for _ in range(3)` (check_fraud.py lines 109-115): each
round invokes the judge once (`await request_ollama(...)`; `judge` gives the
raw reply of the invocation with the given index), runs `find_res.findall`
over the reply (`extract` gives the list of matches), and breaks with status
"success" on the first non-empty match list.  Returns the final status, the
final match list, and the number of judge invocations made. -/
def retryLoop (judge : Nat → String) (extract : String → List String) :
    Nat → Nat → String × List String × Nat
  | 0, made => ("failed", [], made)
  | remaining + 1, made =>
      let result := judge made
      let res := extract result
      if res.isEmpty then retryLoop judge extract remaining (made + 1)
      else ("success", res, made + 1)

/-- Lines 117-121 of check_fraud.py: on success, `json.loads(res[0][0])`
followed by `LLMResponse(**result_dict)` — modelled by `parse`, which may fail
with a Python exception — otherwise the failure sentinel False. -/
def computeWorkerResult (status : String) (res : List String)
    (parse : String → Except PyError Verdict) : Except PyError WorkerResult :=
  if status = "success" then (parse (res.headD "")).map WorkerResult.verdict
  else Except.ok WorkerResult.sentinelFalse

/-- The try-block body of one process_queue iteration (check_fraud.py lines
105-123).  After computing `result_LLMResponse`, the source executes
`cfrd.insert(original_text, result_LLMResponse)`: attribute lookup of "insert"
on the CheckFraudResultDict instance, which the class does not define, so the
statement raises AttributeError before any table mutation; the `.ok` branch of
that lookup is unreachable and leaves the table unchanged for lack of any
method body to give semantics to. -/
def tryProcessText (judge : Nat → String) (extract : String → List String)
    (parse : String → Except PyError Verdict) (s : TableState) :
    Except PyError TableState :=
  let r := retryLoop judge extract 3 0
  match computeWorkerResult r.1 r.2.1 parse with
  | Except.error e => Except.error e
  | Except.ok _result_LLMResponse =>
      match getattrCfrd "insert" with
      | Except.error e => Except.error e
      | Except.ok _ => Except.ok s

/-- One iteration of the `while True` loop of process_queue (check_fraud.py
lines 101-132): bind `original_text = cfq.pop()` (un-awaited), test it against
None, and run the try/except body — `except Exception` catches every exception
of the body, prints it, and falls through, which the Bool in the result
records as "an exception was caught and logged". -/
def processIteration (judge : Nat → String) (extract : String → List String)
    (parse : String → Except PyError Verdict) (s : TableState) (q : List String) :
    TableState × List String × Bool :=
  let pq := popUnawaited q
  match pq.1 with
  | PyObj.pyNone => (s, pq.2, false)
  | PyObj.pyCoroutine =>
      match tryProcessText judge extract parse s with
      | Except.ok s₁ => (s₁, pq.2, false)
      | Except.error _ => (s, pq.2, true)

/-- `n` iterations of the worker loop, threading the table and the queue and
counting the exceptions caught and logged inside iterations.  An exception the
loop failed to catch would abort the whole loop; totality of
`processIteration` is what rules that out. -/
def runWorker (judge : Nat → String) (extract : String → List String)
    (parse : String → Except PyError Verdict) :
    Nat → TableState → List String → Nat → TableState × List String × Nat
  | 0, s, q, logged => (s, q, logged)
  | n + 1, s, q, logged =>
      let r := processIteration judge extract parse s q
      runWorker judge extract parse n r.1 r.2.1 (logged + (if r.2.2 then 1 else 0))

/-- One token of the morphological analyzer's output; only the part-of-speech
tag is inspected by the handler. -/
structure Token where
  tag : String
deriving DecidableEq

/-- `message[-1]`: the final character of a nonempty message. -/
def lastChar (m : String) : Char := m.data.getLastD ' '

/-- `is_incomplete_kor = re.compile(r"[ㄱ-ㅎ|ㅏ-ㅣ]")` (check_fraud_ws.py line
21) matched against the final character: the character class contains the
Hangul compatibility jamo U+3131 to U+314E and U+314F to U+3163, plus the
literal character `|`. -/
def is_incomplete_kor (c : Char) : Bool :=
  (decide (0x3131 ≤ c.toNat) && decide (c.toNat ≤ 0x314E)) || c = '|' ||
  (decide (0x314F ≤ c.toNat) && decide (c.toNat ≤ 0x3163))

/-- `detect_sf = re.compile(r'[\?\!\.]')` (check_fraud_ws.py line 23) matched
against the final character. -/
def detect_sf (c : Char) : Bool := c = '?' || c = '!' || c = '.'

/-- Lines 90-95 of check_fraud_ws.py: `is_insert_sf` is set when the nonempty
message does not already end in sentence-final punctuation. -/
def isInsertSf (message : String) : Bool :=
  decide (0 < message.length) && !(detect_sf (lastChar message))

/-- The message fed to the tokenizer: the original message, with a synthetic
period appended when `is_insert_sf` holds (line 94). -/
def tkMsg (message : String) : String :=
  if isInsertSf message then message ++ "." else message

/-- The tag of the last token, `token[-1].tag`. -/
def lastTag (ts : List Token) : String := ((ts.getLast?).map Token.tag).getD ""

/-- Lines 104-106 of check_fraud_ws.py: if the synthetic period was inserted and
the last token is that period (tag SF), drop it before inspecting the last
segment. -/
def adjustedTokens (tokenize : String → List Token) (message : String) : List Token :=
  let token := tokenize (tkMsg message)
  if isInsertSf message && (lastTag token = "SF") then token.dropLast else token

/-- The replies websocket_endpoint can send for one request. -/
inductive Reply where
  | pong
  | errorInvalidJson
  | errorUnknownType
  | errorNoResponse
  | canned (v : Verdict)
  | result (r : WorkerResult)
deriving DecidableEq

/-- The observable actions one handled request performs, in order. -/
inductive WsAction where
  | sent (r : Reply)
  | registered (k : String)
  | pushed (k : String)
deriving DecidableEq

/-- The canned verdict sent verbatim for an empty message (check_fraud_ws.py
lines 72-81). -/
def emptyMessageVerdict : Verdict :=
  { risk_level := "정상"
    confidence := 1
    detected_patterns := []
    explanation := "빈 문장입니다."
    recommended_action := "" }

/-- Modelled from the spec: `ChatResponse(result=response_data)` followed by
`json.dumps(res.model_dump())` (check_fraud_ws.py lines 119-122); ChatResponse
lives in app/schemas/check_fraud.py, which is not under src/.  Spec section 6
gives the success reply as the verdict-shaped object wrapped under "result";
the wrapping itself is modelled as always succeeding. -/
def chatResponseReply (r : WorkerResult) : Reply := Reply.result r

/-- The decoded shape of one websocket text frame after `json.loads` and
`dict.get`: either the parse raised (non-JSON input), or an object whose
"type" and "message" fields are each absent or a string.  (Non-string field
values other than absence are not needed by any claim and are not modelled.) -/
inductive Inbound where
  | malformed
  | parsed (typeField : Option String) (messageField : Option String)
deriving DecidableEq

/-- The check_fraud branch of websocket_endpoint (check_fraud_ws.py lines
69-124).  `tokenize` stands for `kiwi.tokenize`; `waitOps` lists the table
operations other tasks perform while this caller is suspended in
`wait_for_result`.  When the "message" field is absent, `message` is None and
`len(message)` on line 72 raises an uncaught TypeError. -/
def handleCheckFraud (tokenize : String → List Token) (messageField : Option String)
    (s : TableState) (q : List String) (waitOps : List TableOp) :
    Except PyError (List WsAction × TableState × List String) :=
  match messageField with
  | none => Except.error (PyError.typeError "object of type NoneType has no len")
  | some message =>
      if message.length ≤ 0 then
        Except.ok ([WsAction.sent (Reply.canned emptyMessageVerdict)], s, q)
      else if 0 < message.length ∧ is_incomplete_kor (lastChar message) = true then
        Except.ok ([], s, q)
      else
        let token := tokenize (tkMsg message)
        if 0 < token.length then
          let token₂ := adjustedTokens tokenize message
          if 0 < token₂.length ∧ (lastTag token₂ = "EF" ∨ lastTag token₂ = "SF") then
            let s₁ := create_event_for_message s message
            let q₁ := q ++ [message]
            match wait_for_result s₁ message waitOps with
            | (some r, s₂) =>
                Except.ok ([WsAction.registered message, WsAction.pushed message,
                            WsAction.sent (chatResponseReply r)], s₂, q₁)
            | (none, s₂) =>
                Except.ok ([WsAction.registered message, WsAction.pushed message,
                            WsAction.sent Reply.errorNoResponse], s₂, q₁)
          else Except.ok ([], s, q)
        else Except.ok ([], s, q)

/-- One iteration of the receive loop of websocket_endpoint (check_fraud_ws.py
lines 59-127): dispatch on the parsed frame — invalid JSON and unknown types
are answered with error envelopes, "ping" with "pong", "check_fraud" with the
branch above. -/
def handleInbound (tokenize : String → List Token) (frame : Inbound)
    (s : TableState) (q : List String) (waitOps : List TableOp) :
    Except PyError (List WsAction × TableState × List String) :=
  match frame with
  | Inbound.malformed => Except.ok ([WsAction.sent Reply.errorInvalidJson], s, q)
  | Inbound.parsed t m =>
      if t = some "ping" then Except.ok ([WsAction.sent Reply.pong], s, q)
      else if t = some "check_fraud" then handleCheckFraud tokenize m s q waitOps
      else Except.ok ([WsAction.sent Reply.errorUnknownType], s, q)

/-- The `while True` receive loop: frames are processed in order, accumulating
the actions performed; an exception an iteration does not handle aborts the
loop (the only handler outside the loop is for WebSocketDisconnect), leaving
the remaining frames unprocessed. -/
def runSession (tokenize : String → List Token) :
    List (Inbound × List TableOp) → TableState → List String → List WsAction →
    Except PyError (List WsAction × TableState × List String)
  | [], s, q, acc => Except.ok (acc, s, q)
  | (frame, ops) :: rest, s, q, acc =>
      match handleInbound tokenize frame s q ops with
      | Except.ok (as, s₁, q₁) => runSession tokenize rest s₁ q₁ (acc ++ as)
      | Except.error e => Except.error e

/-! Helper lemmas about the association-list model of the Python dict. -/

theorem lookupKey_eq_none {k : String}
    {l : List (String × Nat × Option WorkerResult)} :
    lookupKey k l = none ↔ k ∉ l.map Prod.fst := by
  induction l with
  | nil => simp [lookupKey]
  | cons hd tl ih =>
      obtain ⟨k₀, v₀⟩ := hd
      by_cases h : k₀ = k
      · subst h; simp [lookupKey]
      · simp [lookupKey, h, ih, Ne.symm h]

theorem lookupKey_mem {k : String} {v : Nat × Option WorkerResult}
    {l : List (String × Nat × Option WorkerResult)}
    (h : lookupKey k l = some v) : (k, v) ∈ l := by
  induction l with
  | nil => simp [lookupKey] at h
  | cons hd tl ih =>
      obtain ⟨k₀, v₀⟩ := hd
      by_cases hk : k₀ = k
      · subst hk
        simp [lookupKey] at h
        simp [h]
      · simp [lookupKey, hk] at h
        exact List.mem_cons_of_mem _ (ih h)

theorem map_fst_setKey (k : String) (v : Nat × Option WorkerResult)
    (l : List (String × Nat × Option WorkerResult)) :
    (setKey k v l).map Prod.fst = l.map Prod.fst := by
  induction l with
  | nil => rfl
  | cons hd tl ih =>
      obtain ⟨k₀, v₀⟩ := hd
      by_cases h : k₀ = k
      · simp [setKey, h]
      · simp [setKey, h, ih]

theorem mem_setKey {p : String × Nat × Option WorkerResult} {k : String}
    {v : Nat × Option WorkerResult} {l : List (String × Nat × Option WorkerResult)}
    (h : p ∈ setKey k v l) : p ∈ l ∨ p = (k, v) := by
  induction l with
  | nil => simp [setKey] at h
  | cons hd tl ih =>
      obtain ⟨k₀, v₀⟩ := hd
      by_cases hk : k₀ = k
      · subst hk
        simp [setKey] at h
        rcases h with h | h
        · right; simp [h]
        · left; exact List.mem_cons_of_mem _ h
      · simp [setKey, hk] at h
        rcases h with h | h
        · left; simp [h]
        · rcases ih h with h₁ | h₁
          · left; exact List.mem_cons_of_mem _ h₁
          · right; exact h₁

theorem eraseKey_sublist (k : String) (l : List (String × Nat × Option WorkerResult)) :
    (eraseKey k l).Sublist l := by
  induction l with
  | nil => simp [eraseKey]
  | cons hd tl ih =>
      obtain ⟨k₀, v₀⟩ := hd
      by_cases h : k₀ = k
      · simp [eraseKey, h]
      · simp only [eraseKey, if_neg h]
        exact List.Sublist.cons₂ (k₀, v₀) ih

theorem mem_eraseKey {p : String × Nat × Option WorkerResult} {k : String}
    {l : List (String × Nat × Option WorkerResult)}
    (h : p ∈ eraseKey k l) : p ∈ l :=
  (eraseKey_sublist k l).mem h

theorem nodup_map_fst_eraseKey {k : String}
    {l : List (String × Nat × Option WorkerResult)}
    (h : (l.map Prod.fst).Nodup) : ((eraseKey k l).map Prod.fst).Nodup :=
  h.sublist ((eraseKey_sublist k l).map Prod.fst)

theorem lookupKey_eraseKey_self {k : String}
    {l : List (String × Nat × Option WorkerResult)}
    (h : (l.map Prod.fst).Nodup) : lookupKey k (eraseKey k l) = none := by
  induction l with
  | nil => rfl
  | cons hd tl ih =>
      obtain ⟨k₀, v₀⟩ := hd
      simp only [List.map_cons, List.nodup_cons] at h
      by_cases hk : k₀ = k
      · subst hk
        simp only [eraseKey, if_pos rfl]
        exact lookupKey_eq_none.mpr h.1
      · simp only [eraseKey, if_neg hk, lookupKey, if_neg hk]
        exact ih h.2

theorem countKey_eq_zero_of_not_mem {k : String}
    {l : List (String × Nat × Option WorkerResult)}
    (h : k ∉ l.map Prod.fst) : countKey k l = 0 := by
  unfold countKey
  rw [List.length_eq_zero, List.filter_eq_nil_iff]
  intro p hp
  simp only [decide_eq_true_eq]
  intro hpk
  exact h (by simpa [hpk] using List.mem_map_of_mem Prod.fst hp)

theorem countKey_eq_one_of_lookup {k : String} {v : Nat × Option WorkerResult}
    {l : List (String × Nat × Option WorkerResult)}
    (hnd : (l.map Prod.fst).Nodup) (h : lookupKey k l = some v) :
    countKey k l = 1 := by
  induction l with
  | nil => simp [lookupKey] at h
  | cons hd tl ih =>
      obtain ⟨k₀, v₀⟩ := hd
      simp only [List.map_cons, List.nodup_cons] at hnd
      by_cases hk : k₀ = k
      · subst hk
        have h0 : countKey k₀ tl = 0 := countKey_eq_zero_of_not_mem hnd.1
        unfold countKey at h0 ⊢
        rw [List.filter_cons, if_pos (by simp)]
        simp [h0]
      · simp only [lookupKey, if_neg hk] at h
        unfold countKey
        rw [List.filter_cons, if_neg (by simp [hk])]
        exact ih hnd.2 h

/-! Preservation lemmas for the correlation-table operations. -/

theorem WF_create {s : TableState} (m : String) (h : WF s) :
    WF (create_event_for_message s m) := by
  unfold create_event_for_message
  cases hl : lookupKey m s.entries with
  | some p => exact h
  | none =>
      obtain ⟨h₁, h₂, h₃⟩ := h
      refine ⟨?_, ?_, ?_⟩
      · rw [List.map_cons, List.nodup_cons]
        exact ⟨lookupKey_eq_none.mp hl, h₁⟩
      · intro p hp
        simp only [List.mem_cons] at hp
        rcases hp with hp | hp
        · simp [hp]
        · exact Nat.lt_succ_of_lt (h₂ p hp)
      · intro i hi
        exact Nat.lt_succ_of_lt (h₃ i hi)

theorem WF_set {s : TableState} (m : String) (r : WorkerResult) (h : WF s) :
    WF (set_result_for_message s m r) := by
  unfold set_result_for_message
  cases hl : lookupKey m s.entries with
  | none => exact h
  | some p =>
      obtain ⟨eid, r₀⟩ := p
      obtain ⟨h₁, h₂, h₃⟩ := h
      have heid : eid < s.nextId := h₂ _ (lookupKey_mem hl)
      refine ⟨?_, ?_, ?_⟩
      · simpa [map_fst_setKey] using h₁
      · intro p hp
        rcases mem_setKey hp with hp₁ | hp₁
        · exact h₂ p hp₁
        · simp [hp₁, heid]
      · intro i hi
        simp only [List.mem_cons] at hi
        rcases hi with hi | hi
        · simpa [hi] using heid
        · exact h₃ i hi

theorem WF_applyOp {s : TableState} (op : TableOp) (h : WF s) : WF (applyOp s op) := by
  cases op with
  | register k => exact WF_create k h
  | publish k r => exact WF_set k r h

theorem WF_applyOps {s : TableState} (ops : List TableOp) (h : WF s) :
    WF (applyOps s ops) := by
  induction ops generalizing s with
  | nil => exact h
  | cons op rest ih => exact ih (WF_applyOp op h)

theorem fired_create (s : TableState) (m : String) :
    (create_event_for_message s m).fired = s.fired := by
  unfold create_event_for_message
  cases lookupKey m s.entries <;> rfl

theorem nextId_le_create (s : TableState) (m : String) :
    s.nextId ≤ (create_event_for_message s m).nextId := by
  unfold create_event_for_message
  cases lookupKey m s.entries with
  | some p => exact Nat.le_refl _
  | none => exact Nat.le_succ _

theorem applyOps_fired_of_no_publish {s : TableState} {ops : List TableOp}
    (h : ∀ k r, TableOp.publish k r ∉ ops) : (applyOps s ops).fired = s.fired := by
  induction ops generalizing s with
  | nil => rfl
  | cons op rest ih =>
      cases op with
      | register k =>
          have h' : ∀ k' r', TableOp.publish k' r' ∉ rest :=
            fun k' r' hmem => h k' r' (List.mem_cons_of_mem _ hmem)
          calc (applyOps s (TableOp.register k :: rest)).fired
              = (applyOps (create_event_for_message s k) rest).fired := rfl
            _ = (create_event_for_message s k).fired := ih h'
            _ = s.fired := fired_create s k
      | publish k r => exact absurd (List.mem_cons_self _ _) (fun hc => h k r hc)

theorem lookupKey_create_of_some {s : TableState} {x : String}
    {p : Nat × Option WorkerResult} (m : String)
    (h : lookupKey x s.entries = some p) :
    lookupKey x (create_event_for_message s m).entries = some p := by
  unfold create_event_for_message
  cases hl : lookupKey m s.entries with
  | some q => exact h
  | none =>
      simp only [lookupKey]
      by_cases hx : m = x
      · subst hx
        rw [hl] at h
        exact absurd h (by simp)
      · rw [if_neg hx]
        exact h

theorem applyOps_lookup_of_no_publish {s : TableState} {x : String}
    {p : Nat × Option WorkerResult} {ops : List TableOp}
    (hops : ∀ k r, TableOp.publish k r ∉ ops)
    (h : lookupKey x s.entries = some p) :
    lookupKey x (applyOps s ops).entries = some p := by
  induction ops generalizing s with
  | nil => exact h
  | cons op rest ih =>
      cases op with
      | register k =>
          exact ih (fun k' r' hmem => hops k' r' (List.mem_cons_of_mem _ hmem))
            (lookupKey_create_of_some k h)
      | publish k r => exact absurd (List.mem_cons_self _ _) (fun hc => hops k r hc)

theorem WF_wait {s : TableState} (m : String) (ops : List TableOp) (h : WF s) :
    WF (wait_for_result s m ops).2 := by
  unfold wait_for_result
  cases hl : lookupKey m s.entries with
  | none => exact h
  | some p =>
      obtain ⟨eid, r₀⟩ := p
      have hwf : WF (applyOps s ops) := WF_applyOps ops h
      obtain ⟨w₁, w₂, w₃⟩ := hwf
      by_cases hf : eid ∈ (applyOps s ops).fired
      · simp only [if_pos hf]
        cases hl₂ : lookupKey m (applyOps s ops).entries with
        | some q =>
            obtain ⟨eid₂, r₂⟩ := q
            refine ⟨nodup_map_fst_eraseKey w₁, ?_, w₃⟩
            intro p hp
            exact w₂ p (mem_eraseKey hp)
        | none => exact ⟨w₁, w₂, w₃⟩
      · simp only [if_neg hf]
        refine ⟨nodup_map_fst_eraseKey w₁, ?_, w₃⟩
        intro p hp
        exact w₂ p (mem_eraseKey hp)

/-! Behavior of the worker loop. -/

theorem getattrCfrd_insert :
    getattrCfrd "insert" = Except.error (PyError.attributeError "insert") := by
  unfold getattrCfrd cfrdMethods
  rw [if_neg]
  decide

theorem tryProcessText_error (judge : Nat → String) (extract : String → List String)
    (parse : String → Except PyError Verdict) (s : TableState) :
    ∃ e, tryProcessText judge extract parse s = Except.error e := by
  unfold tryProcessText
  cases h : computeWorkerResult (retryLoop judge extract 3 0).1
      (retryLoop judge extract 3 0).2.1 parse with
  | error e => exact ⟨e, by simp [h]⟩
  | ok w => exact ⟨PyError.attributeError "insert", by simp [h, getattrCfrd_insert]⟩

theorem processIteration_eq (judge : Nat → String) (extract : String → List String)
    (parse : String → Except PyError Verdict) (s : TableState) (q : List String) :
    processIteration judge extract parse s q = (s, q, true) := by
  obtain ⟨e, he⟩ := tryProcessText_error judge extract parse s
  unfold processIteration popUnawaited
  simp [he]

theorem runWorker_eq (judge : Nat → String) (extract : String → List String)
    (parse : String → Except PyError Verdict) (n : Nat) (s : TableState)
    (q : List String) (logged : Nat) :
    runWorker judge extract parse n s q logged = (s, q, logged + n) := by
  induction n generalizing logged with
  | zero => simp [runWorker]
  | succ n ih =>
      rw [runWorker, processIteration_eq]
      simp only [if_true]
      rw [ih]
      have harith : logged + 1 + n = logged + (n + 1) := by omega
      rw [harith]

theorem retryLoop_all_fail (judge : Nat → String) :
    retryLoop judge (fun _ => []) 3 0 = ("failed", [], 3) := rfl

/-! Behavior of wait_for_result. -/

theorem wait_timeout_of_no_publish {s : TableState} {msg : String} {ops : List TableOp}
    (hNoPub : ∀ k r, TableOp.publish k r ∉ ops)
    (hUnfired : entryUnfired s msg = true) :
    (wait_for_result s msg ops).1 = none := by
  unfold wait_for_result
  cases hl : lookupKey msg s.entries with
  | none => rfl
  | some p =>
      obtain ⟨eid, r₀⟩ := p
      have hu : eid ∉ s.fired := by
        unfold entryUnfired at hUnfired
        rw [hl] at hUnfired
        exact of_decide_eq_true hUnfired
      have hf : eid ∉ (applyOps s ops).fired := by
        rw [applyOps_fired_of_no_publish hNoPub]
        exact hu
      simp only [if_neg hf]

theorem wait_key_removed (s : TableState) (msg : String) (ops : List TableOp)
    (hWF : WF s) :
    lookupKey msg ((wait_for_result s msg ops).2).entries = none := by
  unfold wait_for_result
  cases hl : lookupKey msg s.entries with
  | none => exact hl
  | some p =>
      obtain ⟨eid, r₀⟩ := p
      have hwf₁ : WF (applyOps s ops) := WF_applyOps ops hWF
      by_cases hf : eid ∈ (applyOps s ops).fired
      · simp only [if_pos hf]
        cases hl₂ : lookupKey msg (applyOps s ops).entries with
        | some q =>
            obtain ⟨a, b⟩ := q
            exact lookupKey_eraseKey_self hwf₁.1
        | none => exact hl₂
      · simp only [if_neg hf]
        exact lookupKey_eraseKey_self hwf₁.1

theorem create_noop_of_lookup_some {s : TableState} {m : String}
    {p : Nat × Option WorkerResult} (h : lookupKey m s.entries = some p) :
    create_event_for_message s m = s := by
  unfold create_event_for_message
  rw [h]

theorem lookup_create_self (s : TableState) (msg : String) :
    ∃ p, lookupKey msg (create_event_for_message s msg).entries = some p := by
  unfold create_event_for_message
  cases hl : lookupKey msg s.entries with
  | some p => exact ⟨p, hl⟩
  | none => exact ⟨(s.nextId, none), by simp [lookupKey]⟩

/-- C3: for every key and timeout, when await_result returns — by signal or by
timeout — the key is no longer present in the correlation table; when no
publish occurred within the window (and none had fired the entry's event
before it), the returned value is None; and a subsequent register on the key
behaves as on a fresh key, creating a brand-new entry with an unfired event
and an empty result slot. -/
theorem await_result_removes_key (s : TableState) (msg : String) (ops : List TableOp)
    (hWF : WF s) :
    lookupKey msg ((wait_for_result s msg ops).2).entries = none ∧
    ((∀ k r, TableOp.publish k r ∉ ops) → entryUnfired s msg = true →
      (wait_for_result s msg ops).1 = none) ∧
    lookupKey msg
        (create_event_for_message (wait_for_result s msg ops).2 msg).entries
      = some (((wait_for_result s msg ops).2).nextId, none) ∧
    ((wait_for_result s msg ops).2).nextId ∉ ((wait_for_result s msg ops).2).fired := by
  have hrem := wait_key_removed s msg ops hWF
  have hwf₂ : WF (wait_for_result s msg ops).2 := WF_wait msg ops hWF
  refine ⟨hrem, fun hNoPub hUnf => wait_timeout_of_no_publish hNoPub hUnf, ?_, ?_⟩
  · unfold create_event_for_message
    rw [hrem]
    simp [lookupKey]
  · intro hc
    exact Nat.lt_irrefl _ (hwf₂.2.2 _ hc)

/-- Witness for C3: a table holding one registered key, with one unrelated
registration interleaved during the wait window and no publish: the wait times
out with None, the key is gone, and re-registering creates a fresh entry. -/
theorem await_result_removes_key_witness :
    lookupKey "k" ((wait_for_result (create_event_for_message emptyTable "k") "k"
        [TableOp.register "other"]).2).entries = none ∧
    (wait_for_result (create_event_for_message emptyTable "k") "k"
        [TableOp.register "other"]).1 = none ∧
    lookupKey "k" (create_event_for_message
        (wait_for_result (create_event_for_message emptyTable "k") "k"
          [TableOp.register "other"]).2 "k").entries
      = some (((wait_for_result (create_event_for_message emptyTable "k") "k"
          [TableOp.register "other"]).2).nextId, none) := by
  have h := await_result_removes_key (create_event_for_message emptyTable "k") "k"
      [TableOp.register "other"] (by unfold WF; decide)
  exact ⟨h.1, h.2.1 (by simp) (by decide), h.2.2.1⟩

/-- C4: publish on a key with no pending entry — for instance one already
removed by a timed-out waiter — is a silent no-op: the table is unchanged (and
set_result_for_message raises nothing: it is total). -/
theorem publish_after_removal_is_noop (s : TableState) (msg : String)
    (r : WorkerResult) (h : lookupKey msg s.entries = none) :
    set_result_for_message s msg r = s := by
  unfold set_result_for_message
  rw [h]

/-- Witness for C4: publishing the failure sentinel into an empty table leaves
it exactly as it was. -/
theorem publish_after_removal_is_noop_witness :
    set_result_for_message emptyTable "k" WorkerResult.sentinelFalse = emptyTable :=
  publish_after_removal_is_noop emptyTable "k" WorkerResult.sentinelFalse rfl

/-- C7: register is idempotent — registering the same key twice in a row before
any publish equals registering it once, so the second call changes nothing (the
entry keeps its event and its empty result slot), and exactly one entry exists
for the key afterwards. -/
theorem register_idempotent_single_entry (s : TableState) (msg : String)
    (hWF : WF s) :
    create_event_for_message (create_event_for_message s msg) msg
      = create_event_for_message s msg ∧
    countKey msg (create_event_for_message s msg).entries = 1 := by
  constructor
  · obtain ⟨p, hp⟩ := lookup_create_self s msg
    exact create_noop_of_lookup_some hp
  · unfold create_event_for_message
    cases hl : lookupKey msg s.entries with
    | some p => exact countKey_eq_one_of_lookup hWF.1 hl
    | none =>
        have h0 : countKey msg s.entries = 0 :=
          countKey_eq_zero_of_not_mem (lookupKey_eq_none.mp hl)
        unfold countKey at h0 ⊢
        rw [List.filter_cons, if_pos (by simp)]
        simp [h0]

/-- Witness for C7: double registration of "hello" in the empty table. -/
theorem register_idempotent_single_entry_witness :
    create_event_for_message (create_event_for_message emptyTable "hello") "hello"
      = create_event_for_message emptyTable "hello" ∧
    countKey "hello" (create_event_for_message emptyTable "hello").entries = 1 :=
  register_idempotent_single_entry emptyTable "hello" (by unfold WF; decide)

/-- C1 (the code at the failing input): with the text "얼마 보내면 돼요?"
registered in the table and sitting in the queue, and a judge whose very first
invocation succeeds (its reply is extractable and parses into a well-typed
verdict), one worker iteration publishes nothing: the entry's result slot
stays None and its event never fires, because the queue item is never popped
(`cfq.pop()` is not awaited) and the publish statement raises AttributeError
on the nonexistent method `insert`, which the loop merely catches and logs. -/
theorem worker_never_publishes_successful_verdict :
    retryLoop (fun _ => "judge reply") (fun r => [r]) 3 0
      = ("success", ["judge reply"], 1) ∧
    tryProcessText (fun _ => "judge reply") (fun r => [r])
        (fun _ => Except.ok ⟨"주의", 7/10, ["직접적인 금전 요구"], "설명", "전송 전 확인"⟩)
        (create_event_for_message emptyTable "얼마 보내면 돼요?")
      = Except.error (PyError.attributeError "insert") ∧
    processIteration (fun _ => "judge reply") (fun r => [r])
        (fun _ => Except.ok ⟨"주의", 7/10, ["직접적인 금전 요구"], "설명", "전송 전 확인"⟩)
        (create_event_for_message emptyTable "얼마 보내면 돼요?") ["얼마 보내면 돼요?"]
      = (create_event_for_message emptyTable "얼마 보내면 돼요?", ["얼마 보내면 돼요?"], true) ∧
    lookupKey "얼마 보내면 돼요?"
        (create_event_for_message emptyTable "얼마 보내면 돼요?").entries
      = some (0, none) ∧
    (create_event_for_message emptyTable "얼마 보내면 돼요?").fired = [] := by
  refine ⟨rfl, rfl, ?_, rfl, rfl⟩
  exact processIteration_eq _ _ _ _ _

/-- C2 (the code at the failing input): when no judge reply is ever
extractable, the retry loop performs exactly 3 judge invocations and computes
the data-level failure sentinel (the value False, not an exception) — but the
sentinel is never published: the publish statement raises AttributeError on
the nonexistent method `insert` (and the submission itself was never popped
from the queue), so the iteration logs the exception and leaves the table and
the queue unchanged. -/
theorem retry_three_but_sentinel_never_published (judge : Nat → String)
    (parse : String → Except PyError Verdict) (s : TableState) (q : List String) :
    retryLoop judge (fun _ => []) 3 0 = ("failed", [], 3) ∧
    computeWorkerResult "failed" [] parse = Except.ok WorkerResult.sentinelFalse ∧
    tryProcessText judge (fun _ => []) parse s
      = Except.error (PyError.attributeError "insert") ∧
    processIteration judge (fun _ => []) parse s q = (s, q, true) :=
  ⟨retryLoop_all_fail judge, rfl, rfl, processIteration_eq _ _ _ _ _⟩

/-- C8: the worker loop is exception-proof at its top level: for every judge,
extraction and parse behavior whatsoever, any number of loop iterations
completes normally — every exception an iteration raises is caught and logged
inside that iteration (one caught-and-logged exception is counted per
iteration, since in this code every iteration raises at the nonexistent
`cfrd.insert` at the latest), no verdict is ever published (the table comes
back unchanged), and the loop proceeds to the next iteration. -/
theorem worker_loop_exception_proof (judge : Nat → String)
    (extract : String → List String) (parse : String → Except PyError Verdict)
    (n : Nat) (s : TableState) (q : List String) :
    runWorker judge extract parse n s q 0 = (s, q, n) := by
  simpa using runWorker_eq judge extract parse n s q 0

/-! Behavior of the websocket handler. -/

theorem tokens_pos_of_adjusted {tokenize : String → List Token} {m : String}
    (h : 0 < (adjustedTokens tokenize m).length) :
    0 < (tokenize (tkMsg m)).length := by
  by_contra hc
  push_neg at hc
  have hnil : tokenize (tkMsg m) = [] :=
    List.eq_nil_of_length_eq_zero (Nat.le_zero.mp hc)
  unfold adjustedTokens at h
  rw [hnil] at h
  simp at h

theorem handle_submit_none (tokenize : String → List Token) (s : TableState)
    (q : List String) (waitOps : List TableOp) (m : String) (s₂ : TableState)
    (hlen : 0 < m.length) (hinc : is_incomplete_kor (lastChar m) = false)
    (hpos : 0 < (adjustedTokens tokenize m).length)
    (htag : lastTag (adjustedTokens tokenize m) = "EF" ∨
      lastTag (adjustedTokens tokenize m) = "SF")
    (hw : wait_for_result (create_event_for_message s m) m waitOps = (none, s₂)) :
    handleInbound tokenize (Inbound.parsed (some "check_fraud") (some m)) s q waitOps
      = Except.ok ([WsAction.registered m, WsAction.pushed m,
          WsAction.sent Reply.errorNoResponse], s₂, q ++ [m]) := by
  have hle : ¬ (m.length ≤ 0) := by omega
  have h2 : ¬ (0 < m.length ∧ is_incomplete_kor (lastChar m) = true) := by
    simp [hinc]
  have h3 : 0 < (tokenize (tkMsg m)).length := tokens_pos_of_adjusted hpos
  show handleCheckFraud tokenize (some m) s q waitOps = _
  unfold handleCheckFraud
  simp only [if_neg hle, if_neg h2, if_pos h3, if_pos (And.intro hpos htag), hw]

theorem handle_submit_some (tokenize : String → List Token) (s : TableState)
    (q : List String) (waitOps : List TableOp) (m : String) (s₂ : TableState)
    (r : WorkerResult)
    (hlen : 0 < m.length) (hinc : is_incomplete_kor (lastChar m) = false)
    (hpos : 0 < (adjustedTokens tokenize m).length)
    (htag : lastTag (adjustedTokens tokenize m) = "EF" ∨
      lastTag (adjustedTokens tokenize m) = "SF")
    (hw : wait_for_result (create_event_for_message s m) m waitOps = (some r, s₂)) :
    handleInbound tokenize (Inbound.parsed (some "check_fraud") (some m)) s q waitOps
      = Except.ok ([WsAction.registered m, WsAction.pushed m,
          WsAction.sent (chatResponseReply r)], s₂, q ++ [m]) := by
  have hle : ¬ (m.length ≤ 0) := by omega
  have h2 : ¬ (0 < m.length ∧ is_incomplete_kor (lastChar m) = true) := by
    simp [hinc]
  have h3 : 0 < (tokenize (tkMsg m)).length := tokens_pos_of_adjusted hpos
  show handleCheckFraud tokenize (some m) s q waitOps = _
  unfold handleCheckFraud
  simp only [if_neg hle, if_neg h2, if_pos h3, if_pos (And.intro hpos htag), hw]

/-- C6: completeness gating.  (a) A nonempty fragment whose final character is
an isolated phonetic component (matched by is_incomplete_kor) is classified
"not yet": no reply is sent, no table entry is registered and nothing is
pushed onto the queue.  (b) A nonempty fragment that passes that guard and
whose (possibly synthetic-punctuation-adjusted) last segment is tagged EF
(sentence-final ending) or SF (sentence-final punctuation) is classified
complete: it is registered in the correlation table and pushed onto the
submission queue. -/
theorem completeness_gating :
    (∀ (tokenize : String → List Token) (s : TableState) (q : List String)
        (waitOps : List TableOp) (m : String),
      0 < m.length → is_incomplete_kor (lastChar m) = true →
      handleInbound tokenize (Inbound.parsed (some "check_fraud") (some m)) s q waitOps
        = Except.ok ([], s, q)) ∧
    (∀ (tokenize : String → List Token) (s : TableState) (q : List String)
        (waitOps : List TableOp) (m : String),
      0 < m.length → is_incomplete_kor (lastChar m) = false →
      0 < (adjustedTokens tokenize m).length →
      (lastTag (adjustedTokens tokenize m) = "EF" ∨
        lastTag (adjustedTokens tokenize m) = "SF") →
      ∃ acts s₁ q₁,
        handleInbound tokenize (Inbound.parsed (some "check_fraud") (some m)) s q waitOps
          = Except.ok (acts, s₁, q₁) ∧
        WsAction.registered m ∈ acts ∧ WsAction.pushed m ∈ acts ∧ q₁ = q ++ [m]) := by
  constructor
  · intro tokenize s q waitOps m hlen hinc
    have hle : ¬ (m.length ≤ 0) := by omega
    show handleCheckFraud tokenize (some m) s q waitOps = _
    unfold handleCheckFraud
    simp only [if_neg hle, if_pos (And.intro hlen hinc)]
  · intro tokenize s q waitOps m hlen hinc hpos htag
    rcases hw : wait_for_result (create_event_for_message s m) m waitOps with ⟨res, s₂⟩
    cases res with
    | none =>
        exact ⟨_, s₂, q ++ [m],
          handle_submit_none tokenize s q waitOps m s₂ hlen hinc hpos htag hw,
          by simp, by simp, rfl⟩
    | some r =>
        exact ⟨_, s₂, q ++ [m],
          handle_submit_some tokenize s q waitOps m s₂ r hlen hinc hpos htag hw,
          by simp, by simp, rfl⟩

/-- Witness for C6: the single jamo "ㅋ" is rejected with no actions at all,
while "거래 더 없으세요?" with a tokenizer ending in an SF segment is
registered and queued. -/
theorem completeness_gating_witness :
    handleInbound (fun _ => []) (Inbound.parsed (some "check_fraud") (some "ㅋ"))
        emptyTable [] [] = Except.ok ([], emptyTable, []) ∧
    (∃ acts s₁ q₁,
      handleInbound (fun _ => [⟨"EF"⟩, ⟨"SF"⟩])
          (Inbound.parsed (some "check_fraud") (some "거래 더 없으세요?"))
          emptyTable [] []
        = Except.ok (acts, s₁, q₁) ∧
      WsAction.registered "거래 더 없으세요?" ∈ acts ∧
      WsAction.pushed "거래 더 없으세요?" ∈ acts ∧
      q₁ = [] ++ ["거래 더 없으세요?"]) :=
  ⟨completeness_gating.1 (fun _ => []) emptyTable [] [] "ㅋ" (by decide) (by decide),
   completeness_gating.2 (fun _ => [⟨"EF"⟩, ⟨"SF"⟩]) emptyTable [] []
     "거래 더 없으세요?" (by decide) (by decide) (by decide) (by decide)⟩

/-- C5: terminal judge failure surfaces to the waiting caller as the
data-level "No response from LLM" error envelope — the very reply the wait
timeout produces — never as an exception, and distinguishable from every
successful verdict reply: with a judge whose replies never contain an
extractable verdict, the worker loop never publishes anything (any number of
iterations leaves any table and queue unchanged, logging one caught exception
per iteration), so the caller's wait times out, the entry is reclaimed, and
the handler replies with the error envelope. -/
theorem terminal_failure_error_envelope (tokenize : String → List Token)
    (s : TableState) (q : List String) (waitOps : List TableOp) (m : String)
    (judge : Nat → String) (parse : String → Except PyError Verdict)
    (hWF : WF s) (hfresh : lookupKey m s.entries = none)
    (hlen : 0 < m.length) (hinc : is_incomplete_kor (lastChar m) = false)
    (hpos : 0 < (adjustedTokens tokenize m).length)
    (htag : lastTag (adjustedTokens tokenize m) = "EF" ∨
      lastTag (adjustedTokens tokenize m) = "SF")
    (hNoPub : ∀ k r, TableOp.publish k r ∉ waitOps) :
    (∀ n sW qW, runWorker judge (fun _ => []) parse n sW qW 0 = (sW, qW, n)) ∧
    (∃ s₂, handleInbound tokenize (Inbound.parsed (some "check_fraud") (some m))
        s q waitOps
      = Except.ok ([WsAction.registered m, WsAction.pushed m,
          WsAction.sent Reply.errorNoResponse], s₂, q ++ [m])) ∧
    (∀ v : WorkerResult, Reply.errorNoResponse ≠ chatResponseReply v) ∧
    (∀ v : Verdict, Reply.errorNoResponse ≠ Reply.canned v) := by
  have hunf : entryUnfired (create_event_for_message s m) m = true := by
    unfold entryUnfired create_event_for_message
    rw [hfresh]
    simp only [lookupKey, if_true]
    rw [decide_eq_true_eq]
    intro hc
    exact Nat.lt_irrefl _ (hWF.2.2 _ hc)
  rcases hwp : wait_for_result (create_event_for_message s m) m waitOps with ⟨res, s₂⟩
  have hres : res = none := by
    have := wait_timeout_of_no_publish hNoPub hunf
    rw [hwp] at this
    exact this
  subst hres
  refine ⟨?_, ⟨s₂, handle_submit_none tokenize s q waitOps m s₂ hlen hinc hpos htag hwp⟩,
    ?_, ?_⟩
  · intro n sW qW
    simpa using runWorker_eq judge (fun _ => []) parse n sW qW 0
  · intro v hc
    simp [chatResponseReply] at hc
  · intro v hc
    simp at hc

/-- Witness for C5: a concrete fresh submission whose judge never answers
usefully — two worker iterations change nothing, and the caller receives the
error envelope. -/
theorem terminal_failure_error_envelope_witness :
    runWorker (fun _ => "") (fun _ => []) (fun _ => Except.error (PyError.valueError "bad"))
        2 emptyTable [] 0 = (emptyTable, [], 2) ∧
    (∃ s₂, handleInbound (fun _ => [⟨"EF"⟩])
        (Inbound.parsed (some "check_fraud") (some "거래 더 없으세요")) emptyTable [] []
      = Except.ok ([WsAction.registered "거래 더 없으세요",
          WsAction.pushed "거래 더 없으세요",
          WsAction.sent Reply.errorNoResponse], s₂, [] ++ ["거래 더 없으세요"])) ∧
    Reply.errorNoResponse ≠ chatResponseReply WorkerResult.sentinelFalse := by
  have h := terminal_failure_error_envelope (fun _ => [⟨"EF"⟩]) emptyTable [] []
      "거래 더 없으세요" (fun _ => "") (fun _ => Except.error (PyError.valueError "bad"))
      (by unfold WF; decide) rfl (by decide) (by decide) (by decide) (by decide) (by simp)
  exact ⟨h.1 2 emptyTable [], h.2.1, h.2.2.1 WorkerResult.sentinelFalse⟩

/-- C9: a check_fraud request with an empty message string is answered
synchronously with the canned no-risk verdict — risk_level 정상 (normal),
confidence 1, empty detected_patterns — and nothing else happens: no table
entry is registered, nothing is pushed onto the queue, and the worker and
judge are never involved (table and queue come back unchanged). -/
theorem empty_message_short_circuit (tokenize : String → List Token)
    (s : TableState) (q : List String) (waitOps : List TableOp) :
    handleInbound tokenize (Inbound.parsed (some "check_fraud") (some "")) s q waitOps
      = Except.ok ([WsAction.sent (Reply.canned emptyMessageVerdict)], s, q) ∧
    emptyMessageVerdict.risk_level = "정상" ∧
    emptyMessageVerdict.confidence = 1 ∧
    emptyMessageVerdict.detected_patterns = [] :=
  ⟨rfl, rfl, rfl, rfl⟩

/-- C10: a well-formed JSON check_fraud request lacking the "message" field
makes `len(message)` raise a TypeError that nothing catches: the handler
produces no reply at all for that request (no error envelope), and the receive
loop terminates with the exception, abandoning any frames still pending —
unlike non-JSON input, which is answered gracefully with the Invalid JSON
error envelope while the loop keeps running. -/
theorem missing_message_field_uncaught_typeerror (tokenize : String → List Token)
    (s : TableState) (q : List String) (waitOps : List TableOp)
    (rest : List (Inbound × List TableOp)) :
    handleInbound tokenize (Inbound.parsed (some "check_fraud") none) s q waitOps
      = Except.error (PyError.typeError "object of type NoneType has no len") ∧
    runSession tokenize ((Inbound.parsed (some "check_fraud") none, waitOps) :: rest) s q []
      = Except.error (PyError.typeError "object of type NoneType has no len") ∧
    handleInbound tokenize Inbound.malformed s q waitOps
      = Except.ok ([WsAction.sent Reply.errorInvalidJson], s, q) :=
  ⟨rfl, rfl, rfl⟩
